import Mathlib

/-!
Verification of the `dynamicreplace` Traefik plugin (`dynamic_replace.go`)
against its natural-language specification.

Shallow embedding conventions:
* Go strings (byte strings) are modelled as `List Char`.
* Go `map[string]T` values decoded from JSON are modelled as association
  lists `List (List Char × T)`; `mapGet` returns the *last* binding for a
  key, matching Go's `encoding/json` behaviour of letting later duplicate
  keys in a JSON object overwrite earlier ones.
* JSON values are modelled by the inductive `Json`.  Parsing a raw byte
  body is external library code (`encoding/json`); the pipeline is given
  the parse result as an `Option Json` argument (`none` = the raw body is
  not syntactically valid JSON).  The numeric payload of `Json.num` is
  abstracted to `Int`; no behaviour of this plugin depends on it.
* The two external HTTP collaborators are oracles supplied to the
  functions: the lookup service is a function from the full request URL to
  a `LookupResult`, and the destination service is a `DestBehavior`.
* `http.Error(rw, msg, code)` is modelled as producing a `ServeResult`
  with that status and message (the trailing newline `http.Error` appends
  is not modelled; all claims are about the message text).
* The `next http.Handler` and `name` fields of the Go plugin struct are
  never used by any method of the plugin, so they are omitted from the
  embedded structure.
-/

/-- One step of Go's `strings.ReplaceAll(s, p, v)` loop, with explicit fuel
so that the recursion is structural.  At each position: if the (non-empty)
pattern `p` is a prefix of the remaining input, emit `v` and skip past the
matched occurrence; otherwise emit one character and continue.  This is
Go's left-to-right, non-overlapping replacement of every occurrence.
(Go's special case for an empty pattern — inserting `v` between characters
— is not modelled; the only patterns used by the plugin are tokens of the
form `{{key}}`, which are never empty.) -/
def replaceAllAux (p v : List Char) : Nat → List Char → List Char
  | _, [] => []
  | 0, s => s
  | fuel + 1, c :: rest =>
    if p.isPrefixOf (c :: rest) && !p.isEmpty then
      v ++ replaceAllAux p v fuel ((c :: rest).drop p.length)
    else
      c :: replaceAllAux p v fuel rest

/-- `strings.ReplaceAll(s, p, v)`: replace every non-overlapping occurrence
of `p` in `s` by `v`, scanning left to right.  `s.length` is always enough
fuel because each step consumes at least one character of the input. -/
def replaceAll (s p v : List Char) : List Char :=
  replaceAllAux p v s.length s

/-- The placeholder token `fmt.Sprintf("{{%s}}", key)`. -/
def token (key : List Char) : List Char :=
  '\x7b' :: '\x7b' :: (key ++ ['\x7d', '\x7d'])

/-- Lookup in an association list modelling a Go map built by
`encoding/json`: the last binding for a key wins. -/
def mapGet {α : Type} : List (List Char × α) → List Char → Option α
  | [], _ => none
  | kv :: rest, k =>
    match mapGet rest k with
    | some v => some v
    | none => if kv.1 = k then some kv.2 else none

/-- The body of the replacement loop in `ServeHTTP` (lines 82–86): for one
configured key, if the fetched data contains it, replace all occurrences of
its token; otherwise leave the body unchanged. -/
def substStep (fields : List (List Char × List Char)) (b : List Char) (key : List Char) :
    List Char :=
  match mapGet fields key with
  | some value => replaceAll b (token key) value
  | none => b

/-- The full replacement loop of `ServeHTTP` (lines 81–86): fold `substStep`
over the configured keys, in their configured order, starting from the raw
body text. -/
def substitute (body : List Char) (keys : List (List Char))
    (fields : List (List Char × List Char)) : List Char :=
  keys.foldl ( substStep fields) body

/-- JSON values (shape of parsed JSON).  The numeric payload is abstracted. -/
inductive Json where
  | null : Json
  | bool (b : Bool) : Json
  | num (n : Int) : Json
  | str (s : List Char) : Json
  | arr (elems : List Json) : Json
  | obj (fields : List (List Char × Json)) : Json

instance : Inhabited Json := ⟨Json.null⟩

/-- `json.Unmarshal(body, &requestData)` with `requestData map[string]interface{}`,
given an already syntactically parsed JSON value: a JSON object yields its
fields, JSON `null` yields a nil map (no bindings, no error), and any other
top-level shape is an `UnmarshalTypeError`, i.e. a failure. -/
def toMap : Json → Option (List (List Char × Json))
  | Json.null => some []
  | Json.obj fields => some fields
  | _ => none

/-- `uid, ok := requestData["uid"].(string)` followed by the
`!ok || uid == ""` check in `ServeHTTP` (lines 67–68): the extraction
succeeds exactly when the map holds the key `uid` with a non-empty JSON
string value. -/
def extractUid (requestData : List (List Char × Json)) : Option (List Char) :=
  match mapGet requestData ("uid".toList) with
  | some (Json.str s) => if s.isEmpty then none else some s
  | _ => none

/-- Decoding of a single JSON value into a Go `string` map element, per
`encoding/json`: a JSON string decodes to itself, and a JSON `null`
"has no effect on the value and produces no error", leaving the zero value
`""`.  Every other shape is a decode error. -/
def decodeJsonString : Json → Option (List Char)
  | Json.str s => some s
  | Json.null => some []
  | _ => none

/-- Decoding of the fields of a JSON object into `map[string]string`
entries; fails as soon as one value fails. -/
def decodeFields : List (List Char × Json) → Option (List (List Char × List Char))
  | [] => some []
  | (k, j) :: rest =>
    match decodeJsonString j, decodeFields rest with
    | some s, some m => some ((k, s) :: m)
    | _, _ => none

/-- `json.NewDecoder(resp.Body).Decode(&responseData)` with
`responseData map[string]string`, given the parsed response JSON: an object
decodes field-wise, top-level `null` leaves the nil map (no bindings, no
error), and any other top-level shape is an error. -/
def decodeStringMap : Json → Option (List (List Char × List Char))
  | Json.null => some []
  | Json.obj fields => decodeFields fields
  | _ => none

/-- The plugin configuration (`Config`). -/
structure Config where
  apiURL : List Char
  replaceableKeys : List (List Char)
  destinationURL : List Char
deriving DecidableEq

/-- `CreateConfig`: the zero-valued configuration. -/
def CreateConfig : Config := ⟨[], [], []⟩

/-- The plugin state (`DynamicReplacePlugin`); the unused `next` and `name`
fields are omitted. -/
structure DynamicReplacePlugin where
  apiURL : List Char
  replaceableKeys : List (List Char)
  destinationURL : List Char
deriving DecidableEq

/-- `New` (lines 37–49): reject the configuration iff the API URL is empty,
the destination URL is empty, or the key list is empty; otherwise store the
three settings unchanged. -/
def NewPlugin (config : Config) : Option DynamicReplacePlugin :=
  if config.apiURL.isEmpty || config.destinationURL.isEmpty ||
      config.replaceableKeys.isEmpty then
    none
  else
    some ⟨config.apiURL, config.replaceableKeys, config.destinationURL⟩

/-- Behaviour of the lookup service for one GET request: a connection
error, or an HTTP response with a status code and a body.  The body is
`none` when it is not syntactically valid JSON. -/
inductive LookupResult where
  | connErr : LookupResult
  | httpResp (statusCode : Nat) (body : Option Json) : LookupResult

/-- `fmt.Sprintf("%s?uid=%s", d.apiURL, uid)` (line 94): plain string
concatenation, no URL-encoding of the identifier. -/
def lookupURL (apiURL uid : List Char) : List Char :=
  apiURL ++ ("?uid=".toList ++ uid)

/-- `fetchDataFromAPI` (lines 93–112): GET the concatenated URL; fail on a
connection error; fail when the status code is not `http.StatusOK` (200);
otherwise decode the response body as `map[string]string`, failing when the
decode fails. -/
def fetchDataFromAPI (p : DynamicReplacePlugin) (net : List Char → LookupResult)
    (uid : List Char) : Except Unit (List (List Char × List Char)) :=
  match net (lookupURL p.apiURL uid) with
  | LookupResult.connErr => Except.error ()
  | LookupResult.httpResp st body =>
    if st = 200 then
      match body.bind decodeStringMap with
      | some m => Except.ok m
      | none => Except.error ()
    else
      Except.error ()

/-- Behaviour of the destination for the one POST the plugin may send:
`http.NewRequest` fails, `client.Do` fails, or a response arrives with a
status code and a status line (e.g. `200 OK`). -/
inductive DestBehavior where
  | reqBuildErr : DestBehavior
  | sendErr : DestBehavior
  | resp (statusCode : Nat) (status : List Char) : DestBehavior

/-- The one outbound request `sendToDestination` attempts. -/
structure ForwardCall where
  method : List Char
  url : List Char
  contentType : List Char
  body : List Char
deriving DecidableEq

/-- What `ServeHTTP` writes back to the original caller, plus the
observable interactions: whether the lookup service was queried and which
request (if any) was sent toward the destination. -/
structure ServeResult where
  status : Nat
  message : List Char
  lookupCalled : Bool
  forwardCall : Option ForwardCall
deriving DecidableEq

/-- `sendToDestination` (lines 115–134): build a POST with
`Content-Type: application/json` to the destination URL; on build failure
or send failure answer 500 with the corresponding message; on success
mirror the destination's status code and report its status line.  Returns
`(status written, message written, attempted outbound request)`. -/
def sendToDestination (p : DynamicReplacePlugin) (dest : DestBehavior)
    (updatedBody : List Char) : Nat × List Char × Option ForwardCall :=
  match dest with
  | DestBehavior.reqBuildErr =>
    (500, "could not create request to destination".toList, none)
  | DestBehavior.sendErr =>
    (500, "could not send request to destination".toList,
      some ⟨"POST".toList, p.destinationURL, "application/json".toList, updatedBody⟩)
  | DestBehavior.resp code status =>
    (code, "Request sent to destination with status: ".toList ++ status,
      some ⟨"POST".toList, p.destinationURL, "application/json".toList, updatedBody⟩)

/-- `ServeHTTP` (lines 52–90).  `body` is the raw request body text and
`parsed` the result of parsing it as JSON (`none` = not valid JSON; the
`ioutil.ReadAll` error branch is an I/O failure outside the model).
Stages: unmarshal into a generic map (400 `invalid JSON` on failure),
extract a non-empty string `uid` (400 `uid not found in request` on
failure), fetch from the API (500 on failure, lookup now called), replace
the placeholder tokens in the raw body, and send the result to the
destination. -/
def ServeHTTP (p : DynamicReplacePlugin) (net : List Char → LookupResult)
    (dest : DestBehavior) (body : List Char) (parsed : Option Json) : ServeResult :=
  match parsed with
  | none => ⟨400, "invalid JSON".toList, false, none⟩
  | some j =>
    match toMap j with
    | none => ⟨400, "invalid JSON".toList, false, none⟩
    | some requestData =>
      match extractUid requestData with
      | none => ⟨400, "uid not found in request".toList, false, none⟩
      | some uid =>
        match fetchDataFromAPI p net uid with
        | Except.error _ => ⟨500, "could not fetch data from API".toList, true, none⟩
        | Except.ok fetchedData =>
          let updatedBody := substitute body p.replaceableKeys fetchedData
          let r := sendToDestination p dest updatedBody
          ⟨r.1, r.2.1, true, r.2.2⟩

/-! ## Helper lemmas -/

theorem isPrefixOf_true_iff (p s : List Char) : p.isPrefixOf s = true ↔ p <+: s :=
  List.isPrefixOf_iff_prefix

theorem token_ne_nil (key : List Char) : token key ≠ [] := by
  simp [token]

/-- `replaceAllAux` does not depend on the fuel, as long as the fuel covers
the length of the input. -/
theorem replaceAllAux_fuel (p v : List Char) :
    ∀ fuel fuel' s, s.length ≤ fuel → s.length ≤ fuel' →
      replaceAllAux p v fuel s = replaceAllAux p v fuel' s := by
  intro fuel
  induction fuel with
  | zero =>
    intro fuel' s hs _
    have hnil : s = [] := List.eq_nil_of_length_eq_zero (Nat.le_zero.mp hs)
    subst hnil
    cases fuel' <;> rfl
  | succ f ih =>
    intro fuel' s hs hs'
    cases s with
    | nil => cases fuel' <;> rfl
    | cons c rest =>
      cases fuel' with
      | zero => exact absurd hs' (by simp)
      | succ f' =>
        simp only [replaceAllAux]
        by_cases h : (p.isPrefixOf (c :: rest) && !p.isEmpty) = true
        · rw [if_pos h, if_pos h]
          have hp : 1 ≤ p.length := by
            rcases Bool.and_eq_true .. |>.mp h with ⟨-, h2⟩
            cases p with
            | nil => simp at h2
            | cons _ _ => simp
          have hlen : ((c :: rest).drop p.length).length ≤ f := by
            rw [List.length_drop]
            have : (c :: rest).length - p.length ≤ (c :: rest).length - 1 :=
              Nat.sub_le_sub_left hp _
            omega
          have hlen' : ((c :: rest).drop p.length).length ≤ f' := by
            rw [List.length_drop]
            have : (c :: rest).length - p.length ≤ (c :: rest).length - 1 :=
              Nat.sub_le_sub_left hp _
            omega
          rw [ih f' _ hlen hlen']
        · rw [if_neg h, if_neg h]
          have h1 : rest.length ≤ f := Nat.le_of_succ_le_succ hs
          have h2 : rest.length ≤ f' := Nat.le_of_succ_le_succ hs'
          rw [ih f' rest h1 h2]

/-- When the pattern does not occur in the input, replacement changes
nothing. -/
theorem replaceAllAux_no_occ (p v : List Char) :
    ∀ fuel s, ¬ (p <:+: s) → replaceAllAux p v fuel s = s := by
  intro fuel
  induction fuel with
  | zero => intro s _; cases s <;> rfl
  | succ f ih =>
    intro s h
    cases s with
    | nil => rfl
    | cons c rest =>
      have hpre : p.isPrefixOf (c :: rest) = false := by
        rw [Bool.eq_false_iff]
        intro ht
        exact h ((isPrefixOf_true_iff _ _ |>.mp ht).isInfix)
      have hrest : ¬ (p <:+: rest) := fun hi => h (List.infix_cons_iff.mpr (Or.inr hi))
      simp only [replaceAllAux, hpre, Bool.false_and, Bool.false_eq_true, if_false]
      rw [ih rest hrest]

theorem replaceAll_no_occ (s p v : List Char) (h : ¬ (p <:+: s)) :
    replaceAll s p v = s :=
  replaceAllAux_no_occ p v s.length s h

/-- Left-to-right semantics of `strings.ReplaceAll`: when the input splits
as `a ++ p ++ b` and `p` occurs nowhere strictly before position
`a.length`, the occurrence at `a.length` is replaced and scanning resumes
after it — every later occurrence is then replaced in `b`, so all
occurrences are replaced, not just the first. -/
theorem replaceAll_leftmost (p v : List Char) (hp : p ≠ []) :
    ∀ a b, (∀ i, i < a.length → p.isPrefixOf ((a ++ (p ++ b)).drop i) = false) →
      replaceAll (a ++ (p ++ b)) p v = a ++ (v ++ replaceAll b p v) := by
  intro a
  induction a with
  | nil =>
    intro b _
    cases p with
    | nil => exact absurd rfl hp
    | cons c p' =>
      have hcond : ((c :: p').isPrefixOf (c :: (p' ++ b)) && !(c :: p').isEmpty) = true := by
        rw [Bool.and_eq_true]
        refine ⟨(isPrefixOf_true_iff _ _).mpr ?_, rfl⟩
        rw [← List.cons_append]
        exact List.prefix_append _ _
      have hdrop : List.drop (c :: p').length (c :: (p' ++ b)) = b := by
        rw [← List.cons_append]
        exact List.drop_left _ _
      simp only [replaceAll, List.nil_append, List.cons_append, List.length_cons]
      simp only [replaceAllAux, hcond, if_true]
      rw [hdrop]
      congr 1
      apply replaceAllAux_fuel
      · rw [List.length_append]; exact Nat.le_add_left _ _
      · exact Nat.le_refl _
  | cons c a' ih =>
    intro b hfirst
    have h0 : p.isPrefixOf (c :: (a' ++ (p ++ b))) = false := by
      have h := hfirst 0 (by simp)
      rwa [List.drop_zero, List.cons_append] at h
    have hshift : ∀ i, i < a'.length →
        p.isPrefixOf ((a' ++ (p ++ b)).drop i) = false := by
      intro i hi
      have h := hfirst (i + 1) (by simp only [List.length_cons]; omega)
      rwa [List.cons_append, List.drop_succ_cons] at h
    have hrec := ih b hshift
    simp only [replaceAll, List.cons_append, List.length_cons]
    simp only [replaceAllAux, h0, Bool.false_and, Bool.false_eq_true, if_false]
    exact congrArg (List.cons c) (by simpa only [replaceAll] using hrec)

theorem substitute_nil (body : List Char) (fields : List (List Char × List Char)) :
    substitute body [] fields = body := rfl

theorem substitute_cons (body k : List Char) (keys : List (List Char))
    (fields : List (List Char × List Char)) :
    substitute body (k :: keys) fields = substitute (substStep fields body k) keys fields := rfl

/-- When no applicable token occurs in `s`, the whole substitution loop is
the identity on `s`. -/
theorem substitute_fixed (fields : List (List Char × List Char)) :
    ∀ (keys : List (List Char)) (s : List Char),
      (∀ k, k ∈ keys → (mapGet fields k).isSome = true → ¬ (token k <:+: s)) →
      substitute s keys fields = s := by
  intro keys
  induction keys with
  | nil => intro s _; rfl
  | cons k ks ih =>
    intro s h
    rw [substitute_cons]
    have hstep : substStep fields s k = s := by
      cases hm : mapGet fields k with
      | none => simp [substStep, hm]
      | some v =>
        have hocc : ¬ (token k <:+: s) := h k (by simp) (by rw [hm]; rfl)
        simp only [substStep, hm]
        exact replaceAll_no_occ s (token k) v hocc
    rw [hstep]
    exact ih s (fun k' hk' hs => h k' (by simp [hk']) hs)

theorem decodeJsonString_isSome (j : Json) :
    (decodeJsonString j).isSome = true ↔ ((∃ s, j = Json.str s) ∨ j = Json.null) := by
  cases j <;> simp [decodeJsonString]

theorem decodeFields_isSome (fs : List (List Char × Json)) :
    (decodeFields fs).isSome = true ↔
      ∀ kv, kv ∈ fs → ((∃ s, kv.2 = Json.str s) ∨ kv.2 = Json.null) := by
  induction fs with
  | nil => simp [decodeFields]
  | cons kv rest ih =>
    obtain ⟨k, j⟩ := kv
    constructor
    · intro h kv' hkv'
      cases hd : decodeJsonString j with
      | none => simp [decodeFields, hd] at h
      | some s =>
        cases hr : decodeFields rest with
        | none => simp [decodeFields, hd, hr] at h
        | some m =>
          rcases List.mem_cons.mp hkv' with h1 | h2
          · subst h1
            exact (decodeJsonString_isSome j).mp (by rw [hd]; rfl)
          · exact (ih.mp (by rw [hr]; rfl)) kv' h2
    · intro h
      have hj : (decodeJsonString j).isSome = true :=
        (decodeJsonString_isSome j).mpr (h (k, j) (by simp))
      have hrest : (decodeFields rest).isSome = true :=
        ih.mpr (fun kv' hkv' => h kv' (by simp [hkv']))
      cases hd : decodeJsonString j with
      | none => rw [hd] at hj; simp at hj
      | some s =>
        cases hre : decodeFields rest with
        | none => rw [hre] at hrest; simp at hrest
        | some m => simp [decodeFields, hd, hre]

theorem fetchDataFromAPI_ok (p : DynamicReplacePlugin) (net : List Char → LookupResult)
    (uid : List Char) (ob : Option Json) (m : List (List Char × List Char))
    (h : net (lookupURL p.apiURL uid) = LookupResult.httpResp 200 ob)
    (hm : ob.bind decodeStringMap = some m) :
    fetchDataFromAPI p net uid = Except.ok m := by
  unfold fetchDataFromAPI
  simp only [h, hm]
  simp

theorem ServeHTTP_ok (p : DynamicReplacePlugin) (net : List Char → LookupResult)
    (dest : DestBehavior) (body : List Char) (j : Json)
    (rd : List (List Char × Json)) (uid : List Char) (m : List (List Char × List Char))
    (h1 : toMap j = some rd) (h2 : extractUid rd = some uid)
    (h3 : fetchDataFromAPI p net uid = Except.ok m) :
    ServeHTTP p net dest body (some j) =
      ⟨(sendToDestination p dest (substitute body p.replaceableKeys m)).1,
       (sendToDestination p dest (substitute body p.replaceableKeys m)).2.1,
       true,
       (sendToDestination p dest (substitute body p.replaceableKeys m)).2.2⟩ := by
  simp only [ServeHTTP, h1, h2, h3]

/-! ## Claims -/

/-- C1: For every key in the configured key sequence, the substitution loop
of `ServeHTTP` behaves as claimed.  (1) When the resolved fields contain
the key, its pass replaces every literal occurrence of `{{key}}` by the
resolved value: whenever the body splits as `a ++ token ++ b` with no
occurrence starting before position `a.length`, that leftmost occurrence is
replaced and replacement continues on the remainder `b` — so all
occurrences are replaced, not just the first.  (2) A configured key absent
from the resolved fields leaves the body — and hence its literal token —
unchanged by its pass.  (3) Keys are processed in the order of the
configured sequence (the loop folds over the key list left to right).
Substitution is the total function `substitute`: it never fails. -/
theorem substitute_replaces_each_configured_key
    (fields : List (List Char × List Char)) (keys : List (List Char))
    (key value a b body : List Char)
    (hpresent : mapGet fields key = some value)
    (hfirst : ∀ i, i < a.length →
      (token key).isPrefixOf ((a ++ (token key ++ b)).drop i) = false) :
    substStep fields (a ++ (token key ++ b)) key
        = a ++ (value ++ replaceAll b (token key) value)
    ∧ (∀ body2 key2, mapGet fields key2 = none → substStep fields body2 key2 = body2)
    ∧ substitute body (key :: keys) fields
        = substitute (substStep fields body key) keys fields := by
  refine ⟨?_, ?_, rfl⟩
  · simp only [substStep, hpresent]
    exact replaceAll_leftmost (token key) value (token_ne_nil key) a b hfirst
  · intro body2 key2 h
    simp [substStep, h]

theorem substitute_replaces_each_configured_key_witness :
    substStep [("name".toList, "Ada".toList)]
        ("Hi ".toList ++ (token ("name".toList) ++ "!".toList)) ("name".toList)
        = "Hi ".toList ++ ("Ada".toList ++ replaceAll "!".toList (token ("name".toList)) ("Ada".toList))
    ∧ (∀ body2 key2, mapGet [("name".toList, "Ada".toList)] key2 = none →
        substStep [("name".toList, "Ada".toList)] body2 key2 = body2)
    ∧ substitute "z".toList (("name".toList) :: []) [("name".toList, "Ada".toList)]
        = substitute (substStep [("name".toList, "Ada".toList)] "z".toList ("name".toList)) []
            [("name".toList, "Ada".toList)] :=
  substitute_replaces_each_configured_key
    [("name".toList, "Ada".toList)] [] ("name".toList) ("Ada".toList)
    ("Hi ".toList) ("!".toList) ("z".toList) (by decide) (by decide)

/-- C2: On the concrete scenario — input body
`{"uid":"abc123","greeting":"Hello {{name}}"}`, configured key `name`, a
lookup service answering `{"name":"Ada"}` (HTTP 200) for uid `abc123`, and
a destination answering with any status code and status line — the
pipeline sends exactly `{"uid":"abc123","greeting":"Hello Ada"}` as a POST
with `Content-Type: application/json` to the configured destination URL,
and the caller receives the destination's status code together with a
message containing the destination's status text. -/
theorem pipeline_concrete_scenario
    (apiURL destURL : List Char) (net : List Char → LookupResult)
    (code : Nat) (statusText : List Char)
    (hnet : net (lookupURL apiURL ("abc123".toList))
      = LookupResult.httpResp 200 (some (Json.obj [("name".toList, Json.str ("Ada".toList))]))) :
    ServeHTTP ⟨apiURL, ["name".toList], destURL⟩ net (DestBehavior.resp code statusText)
        ("\x7b\"uid\":\"abc123\",\"greeting\":\"Hello \x7b\x7bname\x7d\x7d\"\x7d".toList)
        (some (Json.obj [("uid".toList, Json.str ("abc123".toList)),
                         ("greeting".toList, Json.str ("Hello \x7b\x7bname\x7d\x7d".toList))]))
      = ⟨code, "Request sent to destination with status: ".toList ++ statusText, true,
          some ⟨"POST".toList, destURL, "application/json".toList,
            "\x7b\"uid\":\"abc123\",\"greeting\":\"Hello Ada\"\x7d".toList⟩⟩ := by
  have hfetch : fetchDataFromAPI ⟨apiURL, ["name".toList], destURL⟩ net ("abc123".toList)
      = Except.ok [("name".toList, "Ada".toList)] :=
    fetchDataFromAPI_ok _ _ _ _ _ hnet (by rfl)
  have h := ServeHTTP_ok ⟨apiURL, ["name".toList], destURL⟩ net
      (DestBehavior.resp code statusText)
      ("\x7b\"uid\":\"abc123\",\"greeting\":\"Hello \x7b\x7bname\x7d\x7d\"\x7d".toList)
      (Json.obj [("uid".toList, Json.str ("abc123".toList)),
                 ("greeting".toList, Json.str ("Hello \x7b\x7bname\x7d\x7d".toList))])
      _ _ _ (by rfl) (by rfl) hfetch
  rw [h]
  rfl

theorem pipeline_concrete_scenario_witness :
    ServeHTTP ⟨"http://api.example".toList, ["name".toList], "http://dest.example".toList⟩
        (fun _ => LookupResult.httpResp 200
          (some (Json.obj [("name".toList, Json.str ("Ada".toList))])))
        (DestBehavior.resp 200 ("200 OK".toList))
        ("\x7b\"uid\":\"abc123\",\"greeting\":\"Hello \x7b\x7bname\x7d\x7d\"\x7d".toList)
        (some (Json.obj [("uid".toList, Json.str ("abc123".toList)),
                         ("greeting".toList, Json.str ("Hello \x7b\x7bname\x7d\x7d".toList))]))
      = ⟨200, "Request sent to destination with status: ".toList ++ "200 OK".toList, true,
          some ⟨"POST".toList, "http://dest.example".toList, "application/json".toList,
            "\x7b\"uid\":\"abc123\",\"greeting\":\"Hello Ada\"\x7d".toList⟩⟩ :=
  pipeline_concrete_scenario ("http://api.example".toList) ("http://dest.example".toList)
    (fun _ => LookupResult.httpResp 200
      (some (Json.obj [("name".toList, Json.str ("Ada".toList))])))
    200 ("200 OK".toList) rfl

/-- C3 counterexample: substitution is not idempotent for every body, key
sequence and field mapping.  With body `{{a}}`, keys `[a]` and the resolved
value of `a` equal to `x{{a}}`, the first substitution yields `x{{a}}` and
a second run yields `xx{{a}}`: the resolved value reintroduces the token,
so re-running substitution does change the body again. -/
theorem substitute_not_idempotent_cex :
    substitute
        (substitute (token ("a".toList)) [("a".toList)]
          [("a".toList, 'x' :: token ("a".toList))])
        [("a".toList)] [("a".toList, 'x' :: token ("a".toList))]
      ≠ substitute (token ("a".toList)) [("a".toList)]
          [("a".toList, 'x' :: token ("a".toList))] := by decide

/-- C3 amended: substitution is idempotent per key under the proviso the
spec itself states ("since the token no longer appears"): if after the
first substitution the body contains no token `{{k}}` of any key `k` that
is both configured and present in the resolved fields, then applying the
substitution a second time with the same key sequence and the same fields
produces no further change.  (Unconditionally the claim is false — a
resolved value may reintroduce a token, see the counterexample.) -/
theorem substitute_idempotent_when_tokens_gone
    (body : List Char) (keys : List (List Char))
    (fields : List (List Char × List Char))
    (h : ∀ k, k ∈ keys → (mapGet fields k).isSome = true →
      ¬ (token k <:+: substitute body keys fields)) :
    substitute (substitute body keys fields) keys fields
      = substitute body keys fields :=
  substitute_fixed fields keys (substitute body keys fields) h

theorem substitute_idempotent_when_tokens_gone_witness :
    substitute
        (substitute ("Hi ".toList ++ (token ("name".toList) ++ "!".toList))
          [("name".toList)] [("name".toList, "Ada".toList)])
        [("name".toList)] [("name".toList, "Ada".toList)]
      = substitute ("Hi ".toList ++ (token ("name".toList) ++ "!".toList))
          [("name".toList)] [("name".toList, "Ada".toList)] :=
  substitute_idempotent_when_tokens_gone
    ("Hi ".toList ++ (token ("name".toList) ++ "!".toList))
    [("name".toList)] [("name".toList, "Ada".toList)] (by decide)

/-- C4: for every raw body that is not valid JSON (the JSON parse fails,
modelled by `parsed = none`), the pipeline responds 400 with the
malformed-input message `invalid JSON`, and neither the lookup service nor
the forwarder is invoked. -/
theorem invalid_json_yields_400
    (p : DynamicReplacePlugin) (net : List Char → LookupResult)
    (dest : DestBehavior) (body : List Char) :
    ServeHTTP p net dest body none
      = ⟨400, "invalid JSON".toList, false, none⟩ := rfl

/-- C5 counterexample: the claim quantifies over *every* valid JSON body
with `uid` absent, but a valid JSON body whose top level is not an object
(here the array `[]`) makes `json.Unmarshal` into
`map[string]interface{}` fail, so the code answers with the
malformed-input message `invalid JSON`, not with the missing-identifier
message `uid not found in request` (the status is 400 either way). -/
theorem missing_uid_claim_cex :
    ServeHTTP ⟨"a".toList, ["k".toList], "b".toList⟩ (fun _ => LookupResult.connErr)
        DestBehavior.sendErr ("[]".toList) (some (Json.arr []))
      = ⟨400, "invalid JSON".toList, false, none⟩
    ∧ "invalid JSON".toList ≠ "uid not found in request".toList := by
  refine ⟨rfl, ?_⟩
  decide

/-- C5 amended: for every valid JSON body that unmarshals into a generic
map — i.e. whose top level is a JSON object or JSON `null` — in which the
key `uid` is absent, or has a non-string value, or the empty string, the
pipeline responds 400 with the missing-identifier message
`uid not found in request`, and neither the lookup service nor the
forwarder is invoked.  (A valid JSON body of any other top-level shape
instead yields the malformed-input outcome 400 `invalid JSON`, see the
counterexample.) -/
theorem missing_uid_yields_400
    (p : DynamicReplacePlugin) (net : List Char → LookupResult) (dest : DestBehavior)
    (body : List Char) (j : Json) (rd : List (List Char × Json))
    (h1 : toMap j = some rd) (h2 : extractUid rd = none) :
    ServeHTTP p net dest body (some j)
      = ⟨400, "uid not found in request".toList, false, none⟩ := by
  simp only [ServeHTTP, h1, h2]

theorem missing_uid_yields_400_witness :
    ServeHTTP ⟨"a".toList, ["k".toList], "b".toList⟩ (fun _ => LookupResult.connErr)
        DestBehavior.sendErr ("\x7b\"uid\":7\x7d".toList)
        (some (Json.obj [("uid".toList, Json.num 7)]))
      = ⟨400, "uid not found in request".toList, false, none⟩ :=
  missing_uid_yields_400 ⟨"a".toList, ["k".toList], "b".toList⟩
    (fun _ => LookupResult.connErr) DestBehavior.sendErr
    ("\x7b\"uid\":7\x7d".toList) (Json.obj [("uid".toList, Json.num 7)])
    [("uid".toList, Json.num 7)] rfl rfl

/-- C6: whenever the lookup call fails — a connection error, a non-success
(non-2xx) response status, or a response body that does not decode as a
flat string-to-string mapping — the pipeline responds 500 with the
lookup-failure message `could not fetch data from API`, and no request is
ever sent toward the destination. -/
theorem lookup_failure_yields_500
    (p : DynamicReplacePlugin) (net : List Char → LookupResult) (dest : DestBehavior)
    (body : List Char) (j : Json) (rd : List (List Char × Json)) (uid : List Char)
    (h1 : toMap j = some rd) (h2 : extractUid rd = some uid)
    (hfail : net (lookupURL p.apiURL uid) = LookupResult.connErr
      ∨ ∃ st ob, net (lookupURL p.apiURL uid) = LookupResult.httpResp st ob
          ∧ (¬ (200 ≤ st ∧ st ≤ 299) ∨ ob.bind decodeStringMap = none)) :
    ServeHTTP p net dest body (some j)
      = ⟨500, "could not fetch data from API".toList, true, none⟩ := by
  have hfetch : fetchDataFromAPI p net uid = Except.error () := by
    unfold fetchDataFromAPI
    rcases hfail with h | ⟨st, ob, h, hcase⟩
    · rw [h]
    · simp only [h]
      rcases hcase with hst | hdec
      · rw [if_neg (by omega)]
      · by_cases h200 : st = 200
        · subst h200
          simp [hdec]
        · simp [h200]
  simp only [ServeHTTP, h1, h2, hfetch]

theorem lookup_failure_yields_500_witness :
    ServeHTTP ⟨"a".toList, ["k".toList], "b".toList⟩ (fun _ => LookupResult.connErr)
        DestBehavior.sendErr ("\x7b\"uid\":\"u\"\x7d".toList)
        (some (Json.obj [("uid".toList, Json.str ("u".toList))]))
      = ⟨500, "could not fetch data from API".toList, true, none⟩ :=
  lookup_failure_yields_500 ⟨"a".toList, ["k".toList], "b".toList⟩
    (fun _ => LookupResult.connErr) DestBehavior.sendErr
    ("\x7b\"uid\":\"u\"\x7d".toList) (Json.obj [("uid".toList, Json.str ("u".toList))])
    [("uid".toList, Json.str ("u".toList))] ("u".toList) rfl rfl (Or.inl rfl)

/-- C7 counterexample: the lookup client does not treat exactly the non-2xx
statuses as failure — it compares against `http.StatusOK` (200) only.  A
201 response (in the 2xx range) with a perfectly decodable body (the empty
JSON object) still makes the fetch fail. -/
theorem lookup_status_2xx_claim_cex :
    (200 ≤ 201 ∧ 201 ≤ 299)
    ∧ decodeStringMap (Json.obj []) = some []
    ∧ fetchDataFromAPI ⟨"a".toList, ["k".toList], "b".toList⟩
        (fun _ => LookupResult.httpResp 201 (some (Json.obj []))) ("u".toList)
        = Except.error () :=
  ⟨by decide, rfl, rfl⟩

/-- C7 amended: the lookup client treats exactly status 200
(`http.StatusOK`) as success: a 200 response with a decodable body
succeeds with the decoded mapping, a 200 response with an undecodable body
fails, and every response with a status code other than 200 — including
other 2xx codes — fails. -/
theorem lookup_status_exactly_200
    (p : DynamicReplacePlugin) (net : List Char → LookupResult) (uid : List Char)
    (st : Nat) (ob : Option Json)
    (h : net (lookupURL p.apiURL uid) = LookupResult.httpResp st ob) :
    (∀ m, st = 200 → ob.bind decodeStringMap = some m →
        fetchDataFromAPI p net uid = Except.ok m)
    ∧ (st = 200 → ob.bind decodeStringMap = none →
        fetchDataFromAPI p net uid = Except.error ())
    ∧ (st ≠ 200 → fetchDataFromAPI p net uid = Except.error ()) := by
  refine ⟨?_, ?_, ?_⟩
  · intro m hst hm
    subst hst
    unfold fetchDataFromAPI
    simp [h, hm]
  · intro hst hm
    subst hst
    unfold fetchDataFromAPI
    simp [h, hm]
  · intro hst
    unfold fetchDataFromAPI
    simp [h, hst]

theorem lookup_status_exactly_200_witness :
    (∀ m, 200 = 200 →
        (some (Json.obj [("k".toList, Json.str ("v".toList))])).bind decodeStringMap = some m →
        fetchDataFromAPI ⟨"a".toList, ["k".toList], "b".toList⟩
          (fun _ => LookupResult.httpResp 200 (some (Json.obj [("k".toList, Json.str ("v".toList))])))
          ("u".toList) = Except.ok m)
    ∧ (200 = 200 →
        (some (Json.obj [("k".toList, Json.str ("v".toList))])).bind decodeStringMap = none →
        fetchDataFromAPI ⟨"a".toList, ["k".toList], "b".toList⟩
          (fun _ => LookupResult.httpResp 200 (some (Json.obj [("k".toList, Json.str ("v".toList))])))
          ("u".toList) = Except.error ())
    ∧ (200 ≠ 200 →
        fetchDataFromAPI ⟨"a".toList, ["k".toList], "b".toList⟩
          (fun _ => LookupResult.httpResp 200 (some (Json.obj [("k".toList, Json.str ("v".toList))])))
          ("u".toList) = Except.error ()) :=
  lookup_status_exactly_200 ⟨"a".toList, ["k".toList], "b".toList⟩
    (fun _ => LookupResult.httpResp 200 (some (Json.obj [("k".toList, Json.str ("v".toList))])))
    ("u".toList) 200 (some (Json.obj [("k".toList, Json.str ("v".toList))])) rfl

/-- C8 counterexample: decoding does not fail on every non-string value.
Following Go's `encoding/json`, a JSON `null` value inside the object
decodes without error (it leaves the zero value `""`), and a top-level JSON
`null` also decodes without error (it leaves the map `nil`) — both cases
the claim declares to be decode failures. -/
theorem decode_null_value_claim_cex :
    decodeStringMap (Json.obj [("a".toList, Json.null)]) = some [("a".toList, [])]
    ∧ decodeStringMap Json.null = some [] :=
  ⟨rfl, rfl⟩

/-- C8 amended: the lookup client's response decoding succeeds exactly on a
top-level JSON `null` or on a JSON object whose values are all strings or
`null`s (a `null` value decodes to the empty string, per Go's
`encoding/json`); every other shape — nested objects, arrays, numbers,
booleans as values, or a non-object top level other than `null` — is a
decode failure. -/
theorem decode_succeeds_iff_flat_string_or_null (j : Json) :
    (decodeStringMap j).isSome = true ↔
      (j = Json.null ∨ ∃ fs, j = Json.obj fs ∧
        ∀ kv, kv ∈ fs → ((∃ s, kv.2 = Json.str s) ∨ kv.2 = Json.null)) := by
  cases j with
  | null => simp [decodeStringMap]
  | obj fs =>
    simp only [decodeStringMap]
    rw [decodeFields_isSome]
    constructor
    · intro h
      exact Or.inr ⟨fs, rfl, h⟩
    · rintro (h | ⟨fs', heq, h⟩)
      · exact absurd h (by simp)
      · injection heq with heq'
        subst heq'
        exact h
  | bool b => simp [decodeStringMap]
  | num n => simp [decodeStringMap]
  | str s => simp [decodeStringMap]
  | arr elems => simp [decodeStringMap]

/-- C9 counterexample: construction does not fail on a key list containing
an empty string — `New` only checks that the list itself is non-empty, so
a configuration with the key list `[""]` (and non-empty URLs) is accepted. -/
theorem new_accepts_empty_key_cex :
    NewPlugin ⟨"a".toList, [([] : List Char)], "b".toList⟩
      = some ⟨"a".toList, [([] : List Char)], "b".toList⟩
    ∧ ([] : List Char) ∈ [([] : List Char)] :=
  ⟨rfl, by simp⟩

/-- C9 amended: construction (`New`) fails exactly when the lookup base URL
is empty, the destination URL is empty, or the placeholder key list is
empty — emptiness of individual keys is not checked — and otherwise
succeeds, storing the three settings unchanged in the handler before any
request is processed. -/
theorem new_fails_iff_missing_setting (c : Config) :
    (NewPlugin c = none
      ↔ (c.apiURL = [] ∨ c.destinationURL = [] ∨ c.replaceableKeys = []))
    ∧ ∀ p, NewPlugin c = some p →
        p.apiURL = c.apiURL ∧ p.replaceableKeys = c.replaceableKeys
        ∧ p.destinationURL = c.destinationURL := by
  have hiff : (c.apiURL.isEmpty || c.destinationURL.isEmpty
      || c.replaceableKeys.isEmpty) = true
      ↔ (c.apiURL = [] ∨ c.destinationURL = [] ∨ c.replaceableKeys = []) := by
    simp [List.isEmpty_iff, Bool.or_eq_true, or_assoc]
  refine ⟨?_, ?_⟩
  · unfold NewPlugin
    split
    · next hcond =>
      simp only [true_iff]
      exact hiff.mp hcond
    · next hcond =>
      constructor
      · intro habs
        exact absurd habs (by simp)
      · intro hr
        exact absurd (hiff.mpr hr) hcond
  · intro p hp
    unfold NewPlugin at hp
    split at hp
    · exact absurd hp (by simp)
    · injection hp with h
      subst h
      exact ⟨rfl, rfl, rfl⟩

theorem new_fails_iff_missing_setting_witness :
    (⟨"a".toList, ["k".toList], "b".toList⟩ : DynamicReplacePlugin).apiURL
        = (⟨"a".toList, ["k".toList], "b".toList⟩ : Config).apiURL
    ∧ (⟨"a".toList, ["k".toList], "b".toList⟩ : DynamicReplacePlugin).replaceableKeys
        = (⟨"a".toList, ["k".toList], "b".toList⟩ : Config).replaceableKeys
    ∧ (⟨"a".toList, ["k".toList], "b".toList⟩ : DynamicReplacePlugin).destinationURL
        = (⟨"a".toList, ["k".toList], "b".toList⟩ : Config).destinationURL :=
  (new_fails_iff_missing_setting ⟨"a".toList, ["k".toList], "b".toList⟩).2
    ⟨"a".toList, ["k".toList], "b".toList⟩ rfl

/-- C10: the lookup request URL is built by plain string concatenation of
the configured base URL, the literal text `?uid=`, and the raw identifier,
with no URL-encoding or escaping — an identifier containing `&`, `#` or
spaces is inserted verbatim — and the fetch consults the lookup service at
exactly that concatenated URL: its outcome depends on the service's answer
at that URL only. -/
theorem lookup_url_plain_concatenation
    (p : DynamicReplacePlugin) (net net' : List Char → LookupResult) (uid : List Char)
    (h : net (p.apiURL ++ ("?uid=".toList ++ uid))
      = net' (p.apiURL ++ ("?uid=".toList ++ uid))) :
    lookupURL p.apiURL uid = p.apiURL ++ ("?uid=".toList ++ uid)
    ∧ fetchDataFromAPI p net uid = fetchDataFromAPI p net' uid := by
  refine ⟨rfl, ?_⟩
  unfold fetchDataFromAPI lookupURL
  rw [h]

theorem lookup_url_plain_concatenation_witness :
    lookupURL (⟨"http://x".toList, ["k".toList], "d".toList⟩ : DynamicReplacePlugin).apiURL
        ("a&b #c".toList)
      = "http://x".toList ++ ("?uid=".toList ++ "a&b #c".toList)
    ∧ fetchDataFromAPI ⟨"http://x".toList, ["k".toList], "d".toList⟩
        (fun _ => LookupResult.connErr) ("a&b #c".toList)
      = fetchDataFromAPI ⟨"http://x".toList, ["k".toList], "d".toList⟩
        (fun _ => LookupResult.connErr) ("a&b #c".toList) :=
  lookup_url_plain_concatenation ⟨"http://x".toList, ["k".toList], "d".toList⟩
    (fun _ => LookupResult.connErr) (fun _ => LookupResult.connErr) ("a&b #c".toList) rfl
